import Mathlib

/-!
Verification of the Qt pasteboard implementation
(`Source/WebCore/platform/qt/PasteboardQt.cpp`).

The embedding models the `Pasteboard` state together with the host
`QClipboard` state; `QMimeData`, `QUrl` and the clipboard itself are Qt
library collaborators and are modelled at the boundary the spec describes
(an ordered typed-entry collection addressed by target, a URL list and a
plain-text convenience accessor).
-/

namespace PasteboardQt

/-- A QString / WTF string: a sequence of UTF-16 code units, each a `Nat`
below 2^16. -/
abbrev QtString := List Nat

/-- UTF-16 code units of a Lean string literal (all literals used here are in the
basic multilingual plane, so code points coincide with code units). -/
def ofString (s : String) : QtString := s.data.map Char.toNat

/-- The literal `"text/plain"`. -/
def textPlainMime : QtString := ofString "text/plain"

/-- The literal `"text/plain;"`. -/
def textPlainMimeParam : QtString := ofString "text/plain;"

/-- The literal `"text/html"`. -/
def textHtmlMime : QtString := ofString "text/html"

/-- The literal `"text/html;"`. -/
def textHtmlMimeParam : QtString := ofString "text/html;"

/-- The reserved smart-replace marker type `"application/vnd.qtwebkit.smartpaste"`. -/
def smartPasteMime : QtString := ofString "application/vnd.qtwebkit.smartpaste"

/-- The URL-list entry type `"text/uri-list"` used by QMimeData for `setUrls`. -/
def uriListMime : QtString := ofString "text/uri-list"

/-- The URL scheme literal `"file"`. -/
def fileScheme : QtString := ofString "file"

/-- `isTextMimeType` (PasteboardQt.cpp line 52):
`type == "text/plain" || type.startsWith("text/plain;")`. -/
def isTextMimeType (type : QtString) : Bool :=
  type == textPlainMime || textPlainMimeParam.isPrefixOf type

/-- `isHtmlMimeType` (PasteboardQt.cpp line 57):
`type == "text/html" || type.startsWith("text/html;")`. -/
def isHtmlMimeType (type : QtString) : Bool :=
  type == textHtmlMime || textHtmlMimeParam.isPrefixOf type

/-- Boundary model of QUrl: its scheme and the local path that
`QUrl::toLocalFile()` resolves it to. -/
structure QUrl where
  scheme : QtString
  localPath : QtString
deriving DecidableEq

/-- Boundary model of `QUrl::toLocalFile()`. -/
def QUrl.toLocalFile (u : QUrl) : QtString := u.localPath

/-- A value stored in one QMimeData entry: QString data (`setText` / `setHtml`),
raw bytes (`setData`), or a URL list (`setUrls`). -/
inductive MimeValue where
  | str (s : QtString)
  | bytes (b : List Nat)
  | urls (us : List QUrl)
deriving DecidableEq

/-- Boundary model of QMimeData: an ordered association list of (format, value)
entries. As in Qt, `setText` stores under `"text/plain"`, `setHtml` under
`"text/html"`, and `setUrls` under `"text/uri-list"`. -/
structure QMimeData where
  entries : List (QtString × MimeValue)
deriving DecidableEq

/-- A fresh, empty QMimeData (`new QMimeData`). -/
def QMimeData.empty : QMimeData := ⟨[]⟩

/-- `QMimeData::setData`-style update: replace any existing entry for `fmt`,
appending the new entry at the end. -/
def QMimeData.setEntry (md : QMimeData) (fmt : QtString) (v : MimeValue) : QMimeData :=
  ⟨md.entries.filter (fun e => e.1 != fmt) ++ [(fmt, v)]⟩

/-- Look up the entry stored under `fmt`. -/
def QMimeData.getValue (md : QMimeData) (fmt : QtString) : Option MimeValue :=
  (md.entries.find? (fun e => e.1 == fmt)).map (fun e => e.2)

/-- `QMimeData::hasFormat`. -/
def QMimeData.hasFormat (md : QMimeData) (fmt : QtString) : Bool :=
  (md.getValue fmt).isSome

/-- `QMimeData::formats`: the stored formats in entry order. -/
def QMimeData.formats (md : QMimeData) : List QtString := md.entries.map (fun e => e.1)

/-- `QMimeData::removeFormat`. -/
def QMimeData.removeFormat (md : QMimeData) (fmt : QtString) : QMimeData :=
  ⟨md.entries.filter (fun e => e.1 != fmt)⟩

/-- `QMimeData::setText`. -/
def QMimeData.setText (md : QMimeData) (s : QtString) : QMimeData :=
  md.setEntry textPlainMime (.str s)

/-- `QMimeData::hasText`. -/
def QMimeData.hasText (md : QMimeData) : Bool := md.hasFormat textPlainMime

/-- `QMimeData::text`: the QString stored under `"text/plain"`, empty otherwise. -/
def QMimeData.text (md : QMimeData) : QtString :=
  match md.getValue textPlainMime with
  | some (.str s) => s
  | _ => []

/-- `QMimeData::setHtml`. -/
def QMimeData.setHtml (md : QMimeData) (s : QtString) : QMimeData :=
  md.setEntry textHtmlMime (.str s)

/-- `QMimeData::hasHtml`. -/
def QMimeData.hasHtml (md : QMimeData) : Bool := md.hasFormat textHtmlMime

/-- `QMimeData::html`: the QString stored under `"text/html"`, empty otherwise. -/
def QMimeData.html (md : QMimeData) : QtString :=
  match md.getValue textHtmlMime with
  | some (.str s) => s
  | _ => []

/-- `QMimeData::setUrls`. -/
def QMimeData.setUrls (md : QMimeData) (us : List QUrl) : QMimeData :=
  md.setEntry uriListMime (.urls us)

/-- `QMimeData::urls`: the URL list stored under `"text/uri-list"`, empty otherwise. -/
def QMimeData.urls (md : QMimeData) : List QUrl :=
  match md.getValue uriListMime with
  | some (.urls us) => us
  | _ => []

/-- `QMimeData::data(fmt)` restricted to raw-byte entries, which is the only shape
the generic read path of `readString` encounters (generic formats are only ever
populated through `setData`). -/
def QMimeData.dataBytes (md : QMimeData) (fmt : QtString) : List Nat :=
  match md.getValue fmt with
  | some (.bytes b) => b
  | _ => []

/-- The two host clipboard targets, `QClipboard::Clipboard` and
`QClipboard::Selection`. -/
inductive ClipboardMode where
  | clipboard
  | selection
deriving DecidableEq

/-- Boundary model of the host QClipboard: the contents of its two targets.
`none` models a cleared slot / a null QMimeData pointer. -/
structure QClipboardState where
  main : Option QMimeData
  selection : Option QMimeData
deriving DecidableEq

/-- `QGuiApplication::clipboard()->mimeData(mode)`. -/
def QClipboardState.mimeData (h : QClipboardState) (mode : ClipboardMode) : Option QMimeData :=
  match mode with
  | .clipboard => h.main
  | .selection => h.selection

/-- `QGuiApplication::clipboard()->setMimeData(d, mode)`; passing `none` models the
null pointer, which clears the target. -/
def QClipboardState.setMimeData (h : QClipboardState) (d : Option QMimeData)
    (mode : ClipboardMode) : QClipboardState :=
  match mode with
  | .clipboard => { h with main := d }
  | .selection => { h with selection := d }

/-- `QGuiApplication::clipboard()->text(mode)`: the target's plain text, empty when
the target is empty. -/
def QClipboardState.text (h : QClipboardState) (mode : ClipboardMode) : QtString :=
  match h.mimeData mode with
  | some d => d.text
  | none => []

/-- The `Pasteboard` state (PasteboardQt.cpp lines 100–106): selection-mode flag,
the non-owning readable binding, the owned writable binding, and the
drag-and-drop classification. -/
structure Pasteboard where
  m_selectionMode : Bool
  m_readableData : Option QMimeData
  m_writableData : Option QMimeData
  m_isForDragAndDrop : Bool
deriving DecidableEq

/-- `Pasteboard::create` / the constructor (lines 62–65 and 100–106): readable
binding as given, no writable binding, selection mode off. -/
def Pasteboard.create (readableClipboard : Option QMimeData) (isForDragAndDrop : Bool) :
    Pasteboard :=
  ⟨false, readableClipboard, none, isForDragAndDrop⟩

/-- `Pasteboard::createForCopyAndPaste` (line 67): readable binding over the host
clipboard's mime data. -/
def Pasteboard.createForCopyAndPaste (host : QClipboardState) : Pasteboard :=
  Pasteboard.create (host.mimeData .clipboard) false

/-- `Pasteboard::createForGlobalSelection` (line 76): as for copy-and-paste, plus
the selection-mode flag. -/
def Pasteboard.createForGlobalSelection (host : QClipboardState) : Pasteboard :=
  { Pasteboard.createForCopyAndPaste host with m_selectionMode := true }

/-- `Pasteboard::createPrivate` (line 83): no readable binding. -/
def Pasteboard.createPrivate : Pasteboard := Pasteboard.create none false

/-- `Pasteboard::createForDragAndDrop()` (line 89): no readable binding,
drag-and-drop classification. -/
def Pasteboard.createForDragAndDrop : Pasteboard := Pasteboard.create none true

/-- `Pasteboard::createForDragAndDrop(const DragData&)` (line 94): readable binding
over the drag payload's platform data. -/
def Pasteboard.createForDragAndDropData (platformData : Option QMimeData) : Pasteboard :=
  Pasteboard.create platformData true

/-- Modelled from the spec: the accessor `isForDragAndDrop` is declared in
Pasteboard.h, which is not part of this source snapshot; spec §4.1 describes the
mode queries as pure functions of the classification set at construction. -/
def Pasteboard.isForDragAndDrop (p : Pasteboard) : Bool := p.m_isForDragAndDrop

/-- Modelled from the spec: the accessor `isForCopyAndPaste` is declared in
Pasteboard.h; spec §4.1 makes copy/paste and drag-and-drop classifications
mutually exclusive, so it is the negation of the drag-and-drop flag. -/
def Pasteboard.isForCopyAndPaste (p : Pasteboard) : Bool := !p.m_isForDragAndDrop

/-- `Pasteboard::readData` (line 230): the active binding — readable if present,
otherwise writable. -/
def Pasteboard.readData (p : Pasteboard) : Option QMimeData :=
  match p.m_readableData with
  | some d => some d
  | none => p.m_writableData

/-- The assertion `ASSERT(!(m_readableData && m_writableData))` at line 232 of the
source, which is also the spec's binding-exclusivity invariant (§3). -/
def Pasteboard.bindingExclusive (p : Pasteboard) : Bool :=
  !(p.m_readableData.isSome && p.m_writableData.isSome)

/-- `Pasteboard::hasData` (line 236). -/
def Pasteboard.hasData (p : Pasteboard) : Bool :=
  match p.readData with
  | none => false
  | some d => decide (0 < d.formats.length)

/-- One `ListHashSet::add` step: append if not already present, keeping
first-occurrence order. -/
def addDistinct (acc : List QtString) (x : QtString) : List QtString :=
  if x ∈ acc then acc else acc ++ [x]

/-- `Pasteboard::types` (line 304): the active binding's formats, deduplicated
through a ListHashSet in first-occurrence order. -/
def Pasteboard.types (p : Pasteboard) : List QtString :=
  match p.readData with
  | none => []
  | some d => d.formats.foldl addDistinct []

/-- The byte image of `data.characters16()` over `data.length() * 2` bytes
(line 299): each UTF-16 code unit contributes its two bytes in native
(little-endian) order. -/
def encodeUtf16 (s : QtString) : List Nat :=
  s.flatMap (fun u => [u % 256, u / 256 % 256])

/-- Modelled from the spec: `QTextCodec::codecForName("UTF-16")->toUnicode` is Qt
library code not in this repository; the spec's wire contract (§4.2, §9) is two
bytes per UTF-16 code unit in native endianness, so decoding pairs consecutive
bytes back into code units (a trailing odd byte decodes to nothing). -/
def decodeUtf16 : List Nat → QtString
  | [] => []
  | [_] => []
  | lo :: hi :: rest => (lo + 256 * hi) :: decodeUtf16 rest

/-- `Pasteboard::readString` (line 271): privileged-type dispatch first, then the
generic raw-byte path decoded as UTF-16. -/
def Pasteboard.readString (p : Pasteboard) (type : QtString) : QtString :=
  match p.readData with
  | none => []
  | some d =>
    if isHtmlMimeType type && d.hasHtml then d.html
    else if isTextMimeType type && d.hasText then d.text
    else decodeUtf16 (d.dataBytes type)

/-- `Pasteboard::writeString` (line 288): lazily create the writable binding, then
dispatch on the privileged type checks; the generic branch stores the UTF-16 code
units of `data` reinterpreted as bytes. -/
def Pasteboard.writeString (p : Pasteboard) (type : QtString) (data : QtString) :
    Pasteboard :=
  let w := p.m_writableData.getD QMimeData.empty
  let w :=
    if isTextMimeType type then w.setText data
    else if isHtmlMimeType type then w.setHtml data
    else w.setEntry type (.bytes (encodeUtf16 data))
  { p with m_writableData := some w }

/-- `Pasteboard::clear(const String& type)` (line 244): remove the format from the
writable binding, dropping the binding when it became empty; for copy/paste
instances re-push the (possibly null) writable binding to the host clipboard
(default target, i.e. `Clipboard`). -/
def Pasteboard.clearType (p : Pasteboard) (type : QtString) (host : QClipboardState) :
    Pasteboard × QClipboardState :=
  let p' :=
    match p.m_writableData with
    | none => p
    | some w =>
      let w' := w.removeFormat type
      if w'.formats.isEmpty then { p with m_writableData := none }
      else { p with m_writableData := some w' }
  let host' :=
    if p'.isForCopyAndPaste then host.setMimeData p'.m_writableData .clipboard
    else host
  (p', host')

/-- `text.replace(QChar(0xa0), QLatin1Char(' '))` (lines 121 and 189): every
non-breaking-space code unit becomes an ordinary space. -/
def replaceNbsp (s : QtString) : QtString :=
  s.map (fun u => if u == 0xa0 then 0x20 else u)

/-- Modelled from the spec: the `SmartReplaceOption` enumeration is declared in
Pasteboard.h, which is not part of this source snapshot; spec §4.2 describes the
plain-text write as taking a smart-replace flag. -/
inductive SmartReplaceOption where
  | canSmartReplace
  | cannotSmartReplace
deriving DecidableEq

/-- The QMimeData assembled by `Pasteboard::writePlainText` (lines 187–192):
normalized text plus, when smart replace is allowed, the zero-length smart-paste
marker entry. -/
def writePlainTextMime (text : QtString) (smartReplaceOption : SmartReplaceOption) :
    QMimeData :=
  let md := QMimeData.empty.setText (replaceNbsp text)
  if smartReplaceOption == .canSmartReplace then md.setEntry smartPasteMime (.bytes [])
  else md

/-- `Pasteboard::writePlainText` (line 184): build the mime data and push it to the
host clipboard (Selection target iff selection mode). The instance's own bindings
are not touched. -/
def Pasteboard.writePlainText (p : Pasteboard) (text : QtString)
    (smartReplaceOption : SmartReplaceOption) (host : QClipboardState) : QClipboardState :=
  host.setMimeData (some (writePlainTextMime text smartReplaceOption))
    (if p.m_selectionMode then .selection else .clipboard)

/-- Modelled from the spec: `ShouldSerializeSelectedTextForDataTransfer` is
declared in Editor.h, outside this source snapshot; spec §4.2 describes a flag
selecting whether alt-text is folded into the serialized text. -/
inductive ShouldSerializeSelectedTextForDataTransfer where
  | defaultSelectedTextType
  | includeImageAltTextForDataTransfer
deriving DecidableEq

/-- The QMimeData assembled by `Pasteboard::writeSelection` (lines 119–134, non-Mac
path): normalized selection text, the interchange markup as native rich text, and
optionally the smart-paste marker. The selected text and the serialized markup come
from external editor/serializer collaborators and are parameters here. -/
def writeSelectionMime (selectedText selectedTextForDataTransfer markup : QtString)
    (canSmartCopyOrDelete : Bool)
    (shouldSerialize : ShouldSerializeSelectedTextForDataTransfer) : QMimeData :=
  let text := if shouldSerialize == .includeImageAltTextForDataTransfer then
    selectedTextForDataTransfer else selectedText
  let md := QMimeData.empty.setText (replaceNbsp text)
  let md := md.setHtml markup
  if canSmartCopyOrDelete then md.setEntry smartPasteMime (.bytes []) else md

/-- `Pasteboard::writeSelection` (line 117): push the assembled mime data to the
host clipboard (Selection target iff selection mode). -/
def Pasteboard.writeSelection (p : Pasteboard)
    (selectedText selectedTextForDataTransfer markup : QtString)
    (canSmartCopyOrDelete : Bool)
    (shouldSerialize : ShouldSerializeSelectedTextForDataTransfer)
    (host : QClipboardState) : QClipboardState :=
  host.setMimeData
    (some (writeSelectionMime selectedText selectedTextForDataTransfer markup
      canSmartCopyOrDelete shouldSerialize))
    (if p.m_selectionMode then .selection else .clipboard)

/-- `Pasteboard::canSmartReplace` (line 140): queries the host's main clipboard
(`clipboard()->mimeData()`, default `Clipboard` target) for the smart-paste marker,
using no instance state at all. -/
def Pasteboard.canSmartReplace (_p : Pasteboard) (host : QClipboardState) : Bool :=
  match host.mimeData .clipboard with
  | some d => d.hasFormat smartPasteMime
  | none => false

/-- `Pasteboard::read(PasteboardPlainText&)` (line 149): the host clipboard's text,
from the Selection target iff selection mode. -/
def Pasteboard.readPlainText (p : Pasteboard) (host : QClipboardState) : QtString :=
  host.text (if p.m_selectionMode then .selection else .clipboard)

/-- `Pasteboard::documentFragment` (lines 156–182). The external fragment
constructors `createFragmentFromMarkup` and `createFragmentFromText` are passed as
functions; the result pairs the fragment (null = `none`) with the `chosePlainText`
out-parameter. -/
def Pasteboard.documentFragment {α : Type} (p : Pasteboard) (host : QClipboardState)
    (createFragmentFromMarkup createFragmentFromText : QtString → Option α)
    (allowPlainText : Bool) : Option α × Bool :=
  match host.mimeData (if p.m_selectionMode then .selection else .clipboard) with
  | none => (none, false)
  | some mimeData =>
    let plainStep : Option α × Bool :=
      if allowPlainText && mimeData.hasText then
        (createFragmentFromText mimeData.text, true)
      else (none, false)
    if mimeData.hasHtml then
      let html := mimeData.html
      if html.isEmpty then plainStep
      else
        match createFragmentFromMarkup html with
        | some fragment => (some fragment, false)
        | none => plainStep
    else plainStep

/-- The loop of `Pasteboard::readFilenames` (lines 328–333): skip URLs whose scheme
is not `"file"`, append the local-file resolution of each file URL in order. -/
def collectLocalFiles : List QUrl → List QtString
  | [] => []
  | url :: rest =>
    if url.scheme != fileScheme then collectLocalFiles rest
    else url.toLocalFile :: collectLocalFiles rest

/-- `Pasteboard::readFilenames` (line 319). -/
def Pasteboard.readFilenames (p : Pasteboard) : List QtString :=
  match p.readData with
  | none => []
  | some d => collectLocalFiles d.urls

/-- The format set exposed by a possibly-null QMimeData handle (a null handle
exposes no formats). -/
def optFormats : Option QMimeData → List QtString
  | some d => d.formats
  | none => []

/-- The scenario input `"hello\u00A0world"`: `"hello"`, a non-breaking space
(code unit 0xa0), then `"world"`. -/
def helloNbspWorld : QtString := ofString "hello" ++ 160 :: ofString "world"

theorem find?_key_filter (l : List (QtString × MimeValue)) (f g : QtString) (h : g ≠ f) :
    (l.filter (fun e => e.1 != f)).find? (fun e => e.1 == g)
      = l.find? (fun e => e.1 == g) := by
  induction l with
  | nil => rfl
  | cons e l ih =>
    by_cases hef : e.1 = f
    · have h1 : (e.1 != f) = false := by simp [hef]
      have h2 : ¬((e.1 == g) = true) := by
        simp only [beq_iff_eq, hef]
        exact fun hg => h hg.symm
      simp [List.filter_cons, h1, h2, ih]
    · have h1 : (e.1 != f) = true := by simp [hef]
      by_cases heg : e.1 = g
      · have h2 : (e.1 == g) = true := by simp [heg]
        simp [List.filter_cons, h1, h2]
      · have h2 : ¬((e.1 == g) = true) := by simp [heg]
        simp [List.filter_cons, h1, h2, ih]

theorem getValue_setEntry (md : QMimeData) (f g : QtString) (v : MimeValue) :
    (md.setEntry f v).getValue g = if g = f then some v else md.getValue g := by
  by_cases h : g = f
  · subst h
    unfold QMimeData.setEntry QMimeData.getValue
    rw [List.find?_append]
    have hnone : (md.entries.filter (fun e => e.1 != g)).find? (fun e => e.1 == g)
        = none := by
      rw [List.find?_eq_none]
      intro x hx
      have hxf := (List.mem_filter.mp hx).2
      simp only [bne_iff_ne, ne_eq] at hxf
      simp [hxf]
    rw [hnone]
    simp
  · unfold QMimeData.setEntry QMimeData.getValue
    rw [List.find?_append, find?_key_filter md.entries f g h]
    cases hf : md.entries.find? (fun e => e.1 == g) with
    | some e => simp [h]
    | none =>
      have hfg : ¬((f == g) = true) := by
        simp only [beq_iff_eq]
        exact fun hh => h hh.symm
      simp [h, hfg]

theorem text_setText (md : QMimeData) (s : QtString) : (md.setText s).text = s := by
  unfold QMimeData.setText QMimeData.text
  rw [getValue_setEntry, if_pos rfl]

theorem text_setEntry_ne (md : QMimeData) (f : QtString) (v : MimeValue)
    (h : textPlainMime ≠ f) : (md.setEntry f v).text = md.text := by
  unfold QMimeData.text
  rw [getValue_setEntry, if_neg h]

theorem text_setHtml (md : QMimeData) (s : QtString) : (md.setHtml s).text = md.text := by
  unfold QMimeData.setHtml
  exact text_setEntry_ne md _ _ (by decide)

theorem decodeUtf16_encodeUtf16 :
    ∀ s : QtString, (∀ u ∈ s, u < 65536) → decodeUtf16 (encodeUtf16 s) = s
  | [], _ => rfl
  | u :: rest, h => by
    have hu : u < 65536 := h u (by simp)
    have henc : encodeUtf16 (u :: rest)
        = u % 256 :: u / 256 % 256 :: encodeUtf16 rest := by
      simp [encodeUtf16]
    rw [henc, decodeUtf16]
    have h2 : u / 256 % 256 = u / 256 := Nat.mod_eq_of_lt (by omega)
    rw [h2]
    have h3 : u % 256 + 256 * (u / 256) = u := Nat.mod_add_div u 256
    rw [h3, decodeUtf16_encodeUtf16 rest (fun x hx => h x (by simp [hx]))]

theorem count_nbsp_replaceNbsp (s : QtString) : (replaceNbsp s).count 0xa0 = 0 := by
  rw [List.count_eq_zero]
  intro hmem
  rw [replaceNbsp, List.mem_map] at hmem
  obtain ⟨u, _, hu⟩ := hmem
  by_cases hcase : u = 0xa0
  · rw [if_pos (by simp [hcase])] at hu
    exact absurd hu (by decide)
  · rw [if_neg (by simp [hcase])] at hu
    exact hcase hu

theorem collectLocalFiles_eq (us : List QUrl) :
    collectLocalFiles us
      = (us.filter (fun u => u.scheme == fileScheme)).map QUrl.toLocalFile := by
  induction us with
  | nil => rfl
  | cons u rest ih =>
    by_cases h : u.scheme = fileScheme <;>
      simp [collectLocalFiles, List.filter_cons, h, ih]

theorem isPrefixOf_iff_exists_append (l₁ l₂ : QtString) :
    l₁.isPrefixOf l₂ = true ↔ ∃ r, l₂ = l₁ ++ r := by
  induction l₁ generalizing l₂ with
  | nil => simp [List.isPrefixOf]
  | cons a t ih =>
    cases l₂ with
    | nil => simp [List.isPrefixOf]
    | cons b t₂ =>
      simp only [List.isPrefixOf, Bool.and_eq_true, beq_iff_eq, ih, List.cons_append,
        List.cons.injEq]
      constructor
      · rintro ⟨rfl, r, hr⟩
        exact ⟨r, rfl, hr⟩
      · rintro ⟨r, rfl, hr⟩
        exact ⟨rfl, r, hr⟩

/-- C1: the claim states that every construction variant and every operation
preserves the predicate `not (m_readableData and m_writableData)`. Evaluating the
code at the failing input shows otherwise: the drag-and-drop construction over a
payload establishes the predicate, but `writeString` then lazily creates the
writable binding without touching the readable one, leaving the instance with
both bindings — the state the source itself asserts impossible at line 232. -/
theorem c1_writeString_violates_binding_exclusivity :
    (Pasteboard.createForDragAndDropData
        (some ⟨[(ofString "x", .bytes [1])]⟩)).bindingExclusive = true ∧
    ((Pasteboard.createForDragAndDropData
        (some ⟨[(ofString "x", .bytes [1])]⟩)).writeString
        (ofString "application/x-foo") (ofString "x")).bindingExclusive = false := by
  decide

/-- C2 counterexample: after `createPrivate` and `writePlainText` of
`"hello\u00A0world"` with smart replace enabled, `readString("text/plain")` on
the instance returns the empty string, not `"hello world"`. `writePlainText`
produces only a new host-clipboard state (first conjunct) and never touches the
instance's own bindings, which stay empty. -/
theorem c2_readString_after_private_writePlainText_is_empty :
    Pasteboard.createPrivate.writePlainText helloNbspWorld .canSmartReplace ⟨none, none⟩
        = ⟨some (writePlainTextMime helloNbspWorld .canSmartReplace), none⟩ ∧
    Pasteboard.createPrivate.readString textPlainMime = [] ∧
    Pasteboard.createPrivate.readString textPlainMime ≠ ofString "hello world" := by
  decide

/-- C2 as amended: for a `createPrivate` instance, `writePlainText` of
`"hello\u00A0world"` with smart replace enabled pushes the normalized text to the
host's main clipboard — the host clipboard then reads back `"hello world"` and
`canSmartReplace` returns true — while `readString("text/plain")` on the instance
itself returns the empty string, its own bindings remaining empty. -/
theorem c2_private_writePlainText_amended :
    (Pasteboard.createPrivate.writePlainText helloNbspWorld .canSmartReplace
        ⟨none, none⟩).text .clipboard = ofString "hello world" ∧
    Pasteboard.createPrivate.canSmartReplace
        (Pasteboard.createPrivate.writePlainText helloNbspWorld .canSmartReplace
          ⟨none, none⟩) = true ∧
    Pasteboard.createPrivate.readString textPlainMime = [] := by
  decide

/-- C3 counterexample: the round-trip fails on an instance that holds a readable
binding, because `readString` consults the readable binding while `writeString`
populated the writable one. The type used is neither plain-text- nor
HTML-privileged. -/
theorem c3_roundtrip_fails_with_readable_binding :
    isTextMimeType (ofString "application/x-foo") = false ∧
    isHtmlMimeType (ofString "application/x-foo") = false ∧
    ((Pasteboard.create (some QMimeData.empty) false).writeString
        (ofString "application/x-foo") (ofString "A")).readString
        (ofString "application/x-foo") ≠ ofString "A" := by
  decide

/-- C3 as amended: on an instance without a readable binding, writing any string
under a non-privileged type identifier and reading the same identifier back
recovers the string exactly — the payload travels as two bytes per UTF-16 code
unit in native endianness and decoding recovers every code unit. -/
theorem c3_writeString_readString_roundtrip (p : Pasteboard) (type s : QtString)
    (htext : isTextMimeType type = false) (hhtml : isHtmlMimeType type = false)
    (hread : p.m_readableData = none) (hunits : ∀ u ∈ s, u < 65536) :
    (p.writeString type s).readString type = s := by
  have hw : (p.writeString type s).m_writableData
      = some ((p.m_writableData.getD QMimeData.empty).setEntry type
          (.bytes (encodeUtf16 s))) := by
    simp [Pasteboard.writeString, htext, hhtml]
  have hnr : (p.writeString type s).m_readableData = none := by
    simp [Pasteboard.writeString, hread]
  have hrd : (p.writeString type s).readData
      = some ((p.m_writableData.getD QMimeData.empty).setEntry type
          (.bytes (encodeUtf16 s))) := by
    rw [Pasteboard.readData, hnr, hw]
  have hbytes : ((p.m_writableData.getD QMimeData.empty).setEntry type
      (.bytes (encodeUtf16 s))).dataBytes type = encodeUtf16 s := by
    unfold QMimeData.dataBytes
    rw [getValue_setEntry, if_pos rfl]
  rw [Pasteboard.readString, hrd]
  simp only [htext, hhtml, Bool.false_and, Bool.and_self, if_neg, ite_false]
  rw [hbytes]
  exact decodeUtf16_encodeUtf16 s hunits

/-- Witness for C3: a concrete non-privileged round-trip on a private instance. -/
theorem c3_writeString_readString_roundtrip_witness :
    (Pasteboard.createPrivate.writeString (ofString "application/x-foo")
        [65, 4660]).readString (ofString "application/x-foo") = [65, 4660] :=
  c3_writeString_readString_roundtrip Pasteboard.createPrivate _ _ (by decide)
    (by decide) rfl (by decide)

/-- C4: the privileged-type dispatch treats an identifier as plain text exactly
when it is `"text/plain"` or extends `"text/plain;"`, and as HTML exactly when it
is `"text/html"` or extends `"text/html;"`; consequently, whenever the active
binding carries a rich-text slot, `readString "text/html; charset=utf-8"` takes
the same HTML path — and returns the same value — as `readString "text/html"`. -/
theorem c4_privileged_type_dispatch :
    (∀ type : QtString, isTextMimeType type = true ↔
        type = textPlainMime ∨ ∃ rest, type = textPlainMimeParam ++ rest) ∧
    (∀ type : QtString, isHtmlMimeType type = true ↔
        type = textHtmlMime ∨ ∃ rest, type = textHtmlMimeParam ++ rest) ∧
    (∀ (p : Pasteboard) (d : QMimeData), p.readData = some d → d.hasHtml = true →
        p.readString (ofString "text/html; charset=utf-8")
          = p.readString textHtmlMime) := by
  refine ⟨?_, ?_, ?_⟩
  · intro type
    unfold isTextMimeType
    rw [Bool.or_eq_true, beq_iff_eq, isPrefixOf_iff_exists_append]
  · intro type
    unfold isHtmlMimeType
    rw [Bool.or_eq_true, beq_iff_eq, isPrefixOf_iff_exists_append]
  · intro p d hd hh
    have h1 : isHtmlMimeType (ofString "text/html; charset=utf-8") = true := by decide
    have h2 : isHtmlMimeType textHtmlMime = true := by decide
    rw [Pasteboard.readString, Pasteboard.readString, hd]
    simp only [h1, h2, hh, Bool.and_self, Bool.true_and, if_pos]

/-- Witness for C4: on an instance whose readable binding has a rich-text slot,
reading `"text/html; charset=utf-8"` equals reading `"text/html"`. -/
theorem c4_privileged_type_dispatch_witness :
    (Pasteboard.create (some (QMimeData.empty.setHtml (ofString "x"))) false).readString
        (ofString "text/html; charset=utf-8")
      = (Pasteboard.create (some (QMimeData.empty.setHtml (ofString "x"))) false).readString
        textHtmlMime :=
  c4_privileged_type_dispatch.2.2 _ _ rfl (by decide)

/-- C5 counterexample: a drag-and-drop instance can hold a readable drag payload
and a writable binding at once (compare C1). Clearing the writable binding's last
format drops the binding, but `hasData` and `types` consult the readable payload,
so they do not report empty afterwards. -/
theorem c5_clear_dnd_with_readable_counterexample :
    (let p := (Pasteboard.createForDragAndDropData
        (some ⟨[(ofString "x", .bytes [1])]⟩)).writeString (ofString "y") (ofString "z")
     let cleared := (p.clearType (ofString "y") ⟨none, none⟩).1
     p.isForDragAndDrop = true ∧ p.m_writableData.isSome = true ∧
     cleared.m_writableData = none ∧ cleared.hasData = true ∧ cleared.types ≠ []) := by
  decide

/-- C5 as amended: for a drag-and-drop instance holding a writable binding and no
readable binding, when `clear(type)` removes the last remaining format the
writable binding is freed and dropped, after which `hasData` returns false and
`types` returns the empty collection. -/
theorem c5_clear_dnd_empties_binding (p : Pasteboard) (w : QMimeData)
    (type : QtString) (host : QClipboardState)
    (_hdnd : p.isForDragAndDrop = true) (hread : p.m_readableData = none)
    (hw : p.m_writableData = some w)
    (hempty : (w.removeFormat type).formats = []) :
    ((p.clearType type host).1).m_writableData = none ∧
    ((p.clearType type host).1).hasData = false ∧
    ((p.clearType type host).1).types = [] := by
  have hp : (p.clearType type host).1 = { p with m_writableData := none } := by
    unfold Pasteboard.clearType
    rw [hw]
    simp [hempty]
  refine ⟨by rw [hp], ?_, ?_⟩
  · rw [hp]
    simp [Pasteboard.hasData, Pasteboard.readData, hread]
  · rw [hp]
    simp [Pasteboard.types, Pasteboard.readData, hread]

/-- Witness for C5: a drag-and-drop instance with no readable binding, one
written format, then `clear` of that format. -/
theorem c5_clear_dnd_empties_binding_witness :
    (((Pasteboard.createForDragAndDrop.writeString (ofString "y")
        (ofString "z")).clearType (ofString "y") ⟨none, none⟩).1).hasData = false ∧
    (((Pasteboard.createForDragAndDrop.writeString (ofString "y")
        (ofString "z")).clearType (ofString "y") ⟨none, none⟩).1).types = [] :=
  ⟨(c5_clear_dnd_empties_binding _ _ _ _ (by decide) rfl rfl (by decide)).2.1,
   (c5_clear_dnd_empties_binding _ _ _ _ (by decide) rfl rfl (by decide)).2.2⟩

/-- C6: on a copy/paste instance, every `clear(type)` call ends by pushing the
instance's writable binding — possibly null — to the host's main clipboard, so
the host clipboard entry equals the post-clear writable binding and in
particular their format sets agree (a null binding exposing no formats). -/
theorem c6_clear_copy_paste_pushes_writable (p : Pasteboard) (type : QtString)
    (host : QClipboardState) (hcp : p.isForCopyAndPaste = true) :
    ((p.clearType type host).2).main = ((p.clearType type host).1).m_writableData ∧
    optFormats ((p.clearType type host).2).main
      = optFormats ((p.clearType type host).1).m_writableData := by
  have hmain : ((p.clearType type host).2).main
      = ((p.clearType type host).1).m_writableData := by
    unfold Pasteboard.clearType
    rw [Pasteboard.isForCopyAndPaste] at hcp
    cases hpw : p.m_writableData with
    | none => simp [Pasteboard.isForCopyAndPaste, hcp, QClipboardState.setMimeData]
    | some w =>
      by_cases he : ((w.removeFormat type).formats).isEmpty <;>
        simp [he, Pasteboard.isForCopyAndPaste, hcp, QClipboardState.setMimeData]
  exact ⟨hmain, by rw [hmain]⟩

/-- Witness for C6: clearing the only written format on a private (copy/paste
classified) instance pushes the now-null binding to the host. -/
theorem c6_clear_copy_paste_pushes_writable_witness :
    (((Pasteboard.createPrivate.writeString (ofString "application/x-bar")
        (ofString "q")).clearType (ofString "application/x-bar") ⟨none, none⟩).2).main
      = (((Pasteboard.createPrivate.writeString (ofString "application/x-bar")
        (ofString "q")).clearType (ofString "application/x-bar")
          ⟨none, none⟩).1).m_writableData :=
  (c6_clear_copy_paste_pushes_writable _ _ _ (by decide)).1

/-- C7: the text entry assembled by the plain-text write and by write-selection
is the input text with every non-breaking space (U+00A0) replaced by an ordinary
space (U+0020); in particular it contains no non-breaking-space code unit. -/
theorem c7_plain_text_writes_normalize_nbsp :
    (∀ (text : QtString) (o : SmartReplaceOption),
        (writePlainTextMime text o).text = replaceNbsp text ∧
        ((writePlainTextMime text o).text).count 0xa0 = 0) ∧
    (∀ (selectedText selectedTextForDataTransfer markup : QtString) (smart : Bool)
        (ser : ShouldSerializeSelectedTextForDataTransfer),
        (writeSelectionMime selectedText selectedTextForDataTransfer markup smart
            ser).text
          = replaceNbsp (if ser == .includeImageAltTextForDataTransfer then
              selectedTextForDataTransfer else selectedText) ∧
        ((writeSelectionMime selectedText selectedTextForDataTransfer markup smart
            ser).text).count 0xa0 = 0) := by
  constructor
  · intro text o
    have ht : (writePlainTextMime text o).text = replaceNbsp text := by
      cases o with
      | canSmartReplace =>
        show ((QMimeData.empty.setText (replaceNbsp text)).setEntry smartPasteMime
            (.bytes [])).text = replaceNbsp text
        rw [text_setEntry_ne _ _ _ (by decide), text_setText]
      | cannotSmartReplace =>
        show (QMimeData.empty.setText (replaceNbsp text)).text = replaceNbsp text
        rw [text_setText]
    exact ⟨ht, ht ▸ count_nbsp_replaceNbsp text⟩
  · intro a b m smart ser
    have ht : (writeSelectionMime a b m smart ser).text
        = replaceNbsp (if ser == .includeImageAltTextForDataTransfer then b else a) := by
      cases smart with
      | true =>
        show (((QMimeData.empty.setText (replaceNbsp
            (if ser == .includeImageAltTextForDataTransfer then b else a))).setHtml
              m).setEntry smartPasteMime (.bytes [])).text
          = replaceNbsp (if ser == .includeImageAltTextForDataTransfer then b else a)
        rw [text_setEntry_ne _ _ _ (by decide), text_setHtml, text_setText]
      | false =>
        show ((QMimeData.empty.setText (replaceNbsp
            (if ser == .includeImageAltTextForDataTransfer then b else a))).setHtml
              m).text
          = replaceNbsp (if ser == .includeImageAltTextForDataTransfer then b else a)
        rw [text_setHtml, text_setText]
    exact ⟨ht, ht ▸ count_nbsp_replaceNbsp _⟩

/-- C8: `documentFragment` attempts the host's rich-text representation first;
when that representation is absent, empty, or the markup constructor yields no
fragment, and plain text is allowed and present, it returns the plain-text
constructor's result with `chosePlainText` set true; in every other case the
result is `(none, false)` — a missing fragment is `none`, never an error. -/
theorem c8_documentFragment_fallback {α : Type} (p : Pasteboard)
    (host : QClipboardState) (fromMarkup fromText : QtString → Option α)
    (allowPlainText : Bool) :
    p.documentFragment host fromMarkup fromText allowPlainText =
      match host.mimeData (if p.m_selectionMode then .selection else .clipboard) with
      | none => (none, false)
      | some md =>
        match (if md.hasHtml && !md.html.isEmpty then fromMarkup md.html else none) with
        | some fragment => (some fragment, false)
        | none =>
          if allowPlainText && md.hasText then (fromText md.text, true)
          else (none, false) := by
  unfold Pasteboard.documentFragment
  cases hmd : host.mimeData (if p.m_selectionMode then .selection else .clipboard) with
  | none => rfl
  | some md =>
    by_cases hh : md.hasHtml
    · by_cases he : md.html.isEmpty
      · simp [hh, he]
      · cases hf : fromMarkup md.html with
        | some fragment => simp [hh, he, hf]
        | none => simp [hh, he, hf]
    · simp [hh]

/-- C9: `readFilenames` returns exactly the local-path resolutions of the
file-scheme URLs of the active binding's URL list, in order; URLs with any other
scheme are skipped, and an absent binding yields the empty list. -/
theorem c9_readFilenames_file_scheme_only (p : Pasteboard) :
    p.readFilenames =
      match p.readData with
      | none => []
      | some d =>
        (d.urls.filter (fun u => u.scheme == fileScheme)).map QUrl.toLocalFile := by
  unfold Pasteboard.readFilenames
  cases p.readData with
  | none => rfl
  | some d => exact collectLocalFiles_eq d.urls

/-- C10: `canSmartReplace` always queries the host's main clipboard for the
smart-replace marker — its result does not depend on the selection-mode flag —
whereas the plain-text read targets the Selection clipboard exactly when the
selection-mode flag is set; for some host state the two targets genuinely give
different reads while `canSmartReplace` is unaffected. -/
theorem c10_canSmartReplace_targets_main_clipboard :
    (∀ (p : Pasteboard) (host : QClipboardState),
        p.canSmartReplace host
            = (match host.main with
               | some d => d.hasFormat smartPasteMime
               | none => false) ∧
        Pasteboard.canSmartReplace { p with m_selectionMode := true } host
            = Pasteboard.canSmartReplace { p with m_selectionMode := false } host ∧
        p.readPlainText host
            = host.text (if p.m_selectionMode then .selection else .clipboard)) ∧
    (∃ (q : Pasteboard) (h2 : QClipboardState), q.m_selectionMode = true ∧
        q.readPlainText h2
            ≠ ({ q with m_selectionMode := false } : Pasteboard).readPlainText h2 ∧
        q.canSmartReplace h2
            = ({ q with m_selectionMode := false } : Pasteboard).canSmartReplace h2) := by
  refine ⟨fun p host => ⟨rfl, rfl, rfl⟩,
    ⟨⟨true, none, none, false⟩,
     ⟨some (QMimeData.empty.setText (ofString "abc")), none⟩, ?_⟩⟩
  decide

/-- Witness for C10: on a selection-mode instance over an empty host,
`canSmartReplace` is false (it reads the main clipboard). -/
theorem c10_canSmartReplace_targets_main_clipboard_witness :
    Pasteboard.canSmartReplace ⟨true, none, none, false⟩ ⟨none, none⟩ = false :=
  (c10_canSmartReplace_targets_main_clipboard.1 ⟨true, none, none, false⟩
    ⟨none, none⟩).1

end PasteboardQt

